import Mathlib

/-!
Shallow embedding of the low-level DWARF decoding core of `tromey/gimli`
(`src/parser.rs` and `src/types.rs`), together with theorems settling the
specification claims about it.

Modelling conventions:
* Rust byte slices (`&[u8]` and `EndianBuf<Endian>`) are modelled by `Buf`,
  a structure holding the machine address of the first byte (`ptr`, the value
  of `as_ptr() as usize`) and the list of bytes (`data`).  Bytes are natural
  numbers; every read reduces a byte modulo 256, which encodes the `u8`
  typing invariant of the Rust slice.
* The `Endianity` type parameter of the Rust code becomes an explicit
  `Endianness` argument.
* Machine integers are `Nat`/`Int` with explicit reductions modulo `2^64`
  where the Rust code uses wrapping arithmetic.
* Fallible functions return `Except Error`.
-/

/-- Byte-order strategy: the `Endianity` trait's two instantiations
(`NativeEndian` is one of these two on any platform). -/
inductive Endianness : Type
  | little : Endianness
  | big : Endianness

/-- Modelled from the spec: a cursor (`EndianBuf<Endian>` / `&[u8]`) is an
immutable view over a byte buffer.  `ptr` is the machine address of the first
byte (`as_ptr() as usize`), `data` the remaining bytes. -/
structure Buf : Type where
  ptr : Nat
  data : List Nat

namespace Buf

/-- `len()` of the slice. -/
def len (b : Buf) : Nat := b.data.length

/-- `range_from(n..)`: drop the first `n` bytes, advancing the pointer. -/
def range_from (b : Buf) (n : Nat) : Buf := ⟨b.ptr + n, b.data.drop n⟩

end Buf

/-- Little-endian value of a byte list (least significant byte first);
each byte is reduced mod 256, encoding the `u8` typing of the slice. -/
def bytesToNatLE : List Nat → Nat
  | [] => 0
  | b :: rest => b % 256 + 256 * bytesToNatLE rest

/-- Modelled from the spec: `Endianity::read_uN` reads the first `n` bytes of
the buffer in the cursor's byte order. -/
def readUnsigned (e : Endianness) (b : Buf) (n : Nat) : Nat :=
  match e with
  | .little => bytesToNatLE (b.data.take n)
  | .big => bytesToNatLE (b.data.take n).reverse

/-- Reinterpret a `w`-bit unsigned value as a two's-complement signed value. -/
def toSigned (w : Nat) (v : Nat) : Int :=
  if v < 2 ^ (w - 1) then (v : Int) else (v : Int) - 2 ^ w

/-- `Endian::read_u16`. -/
def read_u16 (e : Endianness) (b : Buf) : Nat := readUnsigned e b 2

/-- `Endian::read_i16`. -/
def read_i16 (e : Endianness) (b : Buf) : Int := toSigned 16 (readUnsigned e b 2)

/-- `Endian::read_u32`. -/
def read_u32 (e : Endianness) (b : Buf) : Nat := readUnsigned e b 4

/-- `Endian::read_i32`. -/
def read_i32 (e : Endianness) (b : Buf) : Int := toSigned 32 (readUnsigned e b 4)

/-- `Endian::read_u64`. -/
def read_u64 (e : Endianness) (b : Buf) : Nat := readUnsigned e b 8

/-- `Endian::read_i64`. -/
def read_i64 (e : Endianness) (b : Buf) : Int := toSigned 64 (readUnsigned e b 8)

/-- The `Error` enum of `parser.rs`.  Payload types defined outside the two
source files (`constants::DwLns`, `constants::DwLne`, `constants::DwOp`,
`constants::DwCfa`) are represented by their raw numeric value. -/
inductive Error : Type
  | CfiRelativePointerButCfiBaseIsUndefined
  | TextRelativePointerButTextBaseIsUndefined
  | DataRelativePointerButDataBaseIsUndefined
  | FuncRelativePointerInBadContext
  | BadUnsignedLeb128
  | BadSignedLeb128
  | AbbreviationTagZero
  | AttributeFormZero
  | BadHasChildren
  | BadLength
  | UnknownForm
  | ExpectedZero
  | DuplicateAbbreviationCode
  | DuplicateArange
  | UnknownReservedLength
  | UnknownVersion
  | UnitHeaderLengthTooShort
  | UnknownAbbreviation
  | UnexpectedEof
  | UnexpectedNull
  | UnknownStandardOpcode (opcode : Nat)
  | UnknownExtendedOpcode (opcode : Nat)
  | UnsupportedAddressSize (size : Nat)
  | UnsupportedFieldSize (size : Nat)
  | MinimumInstructionLengthZero
  | MaximumOperationsPerInstructionZero
  | LineRangeZero
  | OpcodeBaseZero
  | BadUtf8
  | NotCieId
  | NotCiePointer
  | BadBranchTarget (target : Nat)
  | InvalidPushObjectAddress
  | NotEnoughStackItems
  | TooManyIterations
  | InvalidExpression (op : Nat)
  | InvalidPiece
  | InvalidExpressionTerminator (pos : Nat)
  | DivisionByZero
  | TypeMismatch
  | IntegralTypeRequired
  | UnknownCallFrameInstruction (insn : Nat)
  | InvalidAddressRange
  | InvalidLocationAddressRange
  | CfiInstructionInInvalidContext
  | PopWithEmptyStack
  | NoUnwindInfoForAddress
  | UnsupportedOffset
  | UnknownPointerEncoding
  | NoEntryAtGivenOffset
  | OffsetOutOfBounds
  | UnknownAugmentation
  | UnsupportedPointerEncoding
  | CannotFitInU8
  | TooManyRegisterRules
  | CfiStackFull

/-- `pub type Result<T> = result::Result<T, Error>`. -/
abbrev PResult (T : Type) : Type := Except Error T

/-- `parse_u8`. -/
def parse_u8 (input : Buf) : PResult (Buf × Nat) :=
  match input.data with
  | [] => .error .UnexpectedEof
  | b :: rest => .ok (⟨input.ptr + 1, rest⟩, b % 256)

/-- `parse_i8`: the byte reinterpreted as `i8`. -/
def parse_i8 (input : Buf) : PResult (Buf × Int) :=
  match input.data with
  | [] => .error .UnexpectedEof
  | b :: rest => .ok (⟨input.ptr + 1, rest⟩, toSigned 8 (b % 256))

/-- `parse_u16`. -/
def parse_u16 (e : Endianness) (input : Buf) : PResult (Buf × Nat) :=
  if input.len < 2 then .error .UnexpectedEof
  else .ok (input.range_from 2, read_u16 e input)

/-- `parse_i16`. -/
def parse_i16 (e : Endianness) (input : Buf) : PResult (Buf × Int) :=
  if input.len < 2 then .error .UnexpectedEof
  else .ok (input.range_from 2, read_i16 e input)

/-- `parse_u32`. -/
def parse_u32 (e : Endianness) (input : Buf) : PResult (Buf × Nat) :=
  if input.len < 4 then .error .UnexpectedEof
  else .ok (input.range_from 4, read_u32 e input)

/-- `parse_i32`. -/
def parse_i32 (e : Endianness) (input : Buf) : PResult (Buf × Int) :=
  if input.len < 4 then .error .UnexpectedEof
  else .ok (input.range_from 4, read_i32 e input)

/-- `parse_u64`. -/
def parse_u64 (e : Endianness) (input : Buf) : PResult (Buf × Nat) :=
  if input.len < 8 then .error .UnexpectedEof
  else .ok (input.range_from 8, read_u64 e input)

/-- `parse_i64`. -/
def parse_i64 (e : Endianness) (input : Buf) : PResult (Buf × Int) :=
  if input.len < 8 then .error .UnexpectedEof
  else .ok (input.range_from 8, read_i64 e input)

/-- `parse_u32_as_u64`: parse a `u32` and widen it to `u64`. -/
def parse_u32_as_u64 (e : Endianness) (input : Buf) : PResult (Buf × Nat) :=
  if input.len < 4 then .error .UnexpectedEof
  else .ok (input.range_from 4, read_u32 e input)

/-- Whether the format of a compilation unit is 32- or 64-bit (`Format`). -/
inductive Format : Type
  | Dwarf64 : Format
  | Dwarf32 : Format

/-- `MAX_DWARF_32_UNIT_LENGTH`. -/
def MAX_DWARF_32_UNIT_LENGTH : Nat := 0xfffffff0

/-- `DWARF_64_INITIAL_UNIT_LENGTH`. -/
def DWARF_64_INITIAL_UNIT_LENGTH : Nat := 0xffffffff

/-- `parse_initial_length`. -/
def parse_initial_length (e : Endianness) (input : Buf) :
    PResult (Buf × (Nat × Format)) := do
  let (rest, val) ← parse_u32_as_u64 e input
  if val < MAX_DWARF_32_UNIT_LENGTH then
    .ok (rest, (val, Format.Dwarf32))
  else if val = DWARF_64_INITIAL_UNIT_LENGTH then do
    let (rest, val) ← parse_u64 e rest
    .ok (rest, (val, Format.Dwarf64))
  else
    .error .UnknownReservedLength

/-- `parse_address`: parse an address-sized integer and widen it to `u64`. -/
def parse_address (e : Endianness) (input : Buf) (address_size : Nat) :
    PResult (Buf × Nat) :=
  if input.len < address_size then .error .UnexpectedEof
  else
    match address_size with
    | 8 => .ok (input.range_from 8, read_u64 e input)
    | 4 => .ok (input.range_from 4, read_u32 e input)
    | 2 => .ok (input.range_from 2, read_u16 e input)
    | 1 => .ok (input.range_from 1, (input.data.headD 0) % 256)
    | otherwise => .error (.UnsupportedAddressSize otherwise)

/-- Failure modes of the external `leb128` reader: end of input, or any other
reader error (malformed / overflowing sequence). -/
inductive LebErr : Type
  | eof : LebErr
  | overflow : LebErr

/-- Modelled from the spec: the external `leb128::read::unsigned` routine
(not part of this repository).  Standard unsigned LEB128: accumulate 7 bits
per byte, little-endian groups first, until a byte without the continuation
bit; the result must fit the widest supported unsigned integer (64 bits),
so at the tenth byte (shift 63) only the low bit may still be set; running
out of bytes mid-sequence is an end-of-input failure.  `p` is the machine
address of the next byte, so that the advanced cursor can be rebuilt. -/
def lebUnsigned : Nat → List Nat → Nat → Nat → Except LebErr (Buf × Nat)
  | _, [], _, _ => .error .eof
  | p, b :: rest, shift, result =>
    let b := b % 256
    if shift = 63 ∧ b ≠ 0x00 ∧ b ≠ 0x01 then .error .overflow
    else
      let result := result + (b % 128) * 2 ^ shift
      if b < 128 then .ok (⟨p + 1, rest⟩, result)
      else lebUnsigned (p + 1) rest (shift + 7) result

/-- Modelled from the spec: the external `leb128::read::signed` routine
(not part of this repository).  Standard signed LEB128: accumulate 7 bits
per byte; when the final byte (continuation bit clear) has its sign bit
(0x40) set and fewer than 64 bits were produced, sign-extend; the result
must fit 64 bits, so at the tenth byte (shift 63) the payload bits must all
agree with the sign. -/
def lebSigned : Nat → List Nat → Nat → Nat → Except LebErr (Buf × Int)
  | _, [], _, _ => .error .eof
  | p, b :: rest, shift, result =>
    let b := b % 256
    if shift = 63 ∧ b % 128 ≠ 0x00 ∧ b % 128 ≠ 0x7f then .error .overflow
    else
      let result := result + (b % 128) * 2 ^ shift
      if b < 128 then
        if (b / 64) % 2 = 1 ∧ shift + 7 < 64 then
          .ok (⟨p + 1, rest⟩, (result : Int) - 2 ^ (shift + 7))
        else
          .ok (⟨p + 1, rest⟩, (result : Int))
      else lebSigned (p + 1) rest (shift + 7) result

/-- `parse_unsigned_leb`: end-of-input maps to `UnexpectedEof`, any other
reader failure to `BadUnsignedLeb128`. -/
def parse_unsigned_leb (input : Buf) : PResult (Buf × Nat) :=
  match lebUnsigned input.ptr input.data 0 0 with
  | .ok rv => .ok rv
  | .error .eof => .error .UnexpectedEof
  | .error .overflow => .error .BadUnsignedLeb128

/-- `parse_signed_leb`: end-of-input maps to `UnexpectedEof`, any other
reader failure to `BadSignedLeb128`. -/
def parse_signed_leb (input : Buf) : PResult (Buf × Int) :=
  match lebSigned input.ptr input.data 0 0 with
  | .ok rv => .ok rv
  | .error .eof => .error .UnexpectedEof
  | .error .overflow => .error .BadSignedLeb128

/-- `parse_unsigned_lebe`: like `parse_unsigned_leb` but on `EndianBuf`
(the `Buf` model makes the slice conversions the identity). -/
def parse_unsigned_lebe (input : Buf) : PResult (Buf × Nat) :=
  parse_unsigned_leb input

/-- `parse_signed_lebe`: like `parse_signed_leb` but on `EndianBuf`. -/
def parse_signed_lebe (input : Buf) : PResult (Buf × Int) :=
  parse_signed_leb input

/-- `Iterator::position`: index of the first element satisfying `p`. -/
def position (p : Nat → Bool) : List Nat → Option Nat
  | [] => none
  | x :: xs => if p x then some 0 else (position p xs).map (· + 1)

/-- `parse_null_terminated_string`: scan for the first zero byte; on success
the returned `CStr` is modelled as the byte list `input[0..idx + 1]`
(terminator included, as `CStr::from_bytes_with_nul_unchecked` receives it)
and the remaining input is `input[idx + 1..]`. -/
def parse_null_terminated_string (input : Buf) : PResult (Buf × List Nat) :=
  match position (fun ch => ch % 256 == 0) input.data with
  | some idx =>
      .ok (⟨input.ptr + (idx + 1), input.data.drop (idx + 1)⟩,
           input.data.take (idx + 1))
  | none => .error .UnexpectedEof

/-- Modelled from the spec: a `DW_EH_PE_*` pointer-encoding descriptor byte
(`constants::DwEhPe`, not part of this repository): low nibble = value
format, bits 4-6 = application, top bit = indirection; `0xff` is the
reserved omit value. -/
structure DwEhPe : Type where
  val : Nat
deriving DecidableEq

/-- `DW_EH_PE_omit` (0xff). -/
def DW_EH_PE_omit : DwEhPe := ⟨0xff⟩

namespace DwEhPe

/-- Modelled from the spec: the value-format sub-field (low nibble). -/
def format (e : DwEhPe) : Nat := e.val % 16

/-- Modelled from the spec: the application sub-field (bits 4-6,
i.e. `& 0x70`). -/
def application (e : DwEhPe) : Nat := e.val % 128 / 16 * 16

/-- Modelled from the spec: the indirection flag (bit 7, `0x80`). -/
def is_indirect (e : DwEhPe) : Bool := e.val % 256 / 128 = 1

/-- Modelled from the spec: the enumerated allow-list of valid descriptors.
Valid value formats: absolute address-sized (0x0), unsigned LEB128 (0x1),
unsigned fixed 2/4/8-byte (0x2/0x3/0x4), signed LEB128 (0x9), signed fixed
2/4/8-byte (0xa/0xb/0xc).  Valid applications: absolute (0x00),
program-counter-relative (0x10), text-relative (0x20), data-relative
(0x30), function-relative (0x40), aligned (0x50).  The omit sentinel 0xff
is also valid. -/
def is_valid_encoding (e : DwEhPe) : Bool :=
  e.val = 0xff ∨
  ((e.format = 0x0 ∨ e.format = 0x1 ∨ e.format = 0x2 ∨ e.format = 0x3 ∨
    e.format = 0x4 ∨ e.format = 0x9 ∨ e.format = 0xa ∨ e.format = 0xb ∨
    e.format = 0xc) ∧
   (e.application = 0x00 ∨ e.application = 0x10 ∨ e.application = 0x20 ∨
    e.application = 0x30 ∨ e.application = 0x40 ∨ e.application = 0x50))

end DwEhPe

/-- Modelled from the spec: `cfi::BaseAddresses` (not part of this
repository): four independently optional 64-bit bases.  The `func` field is
a `RefCell` in the source; the resolver only reads it, so it is modelled as
its current contents. -/
structure BaseAddresses : Type where
  cfi : Option Nat
  text : Option Nat
  data : Option Nat
  func : Option Nat

/-- A decoded pointer (`Pointer`). -/
inductive Pointer : Type
  | Direct (p : Nat)
  | Indirect (p : Nat)

/-- `Pointer::new`: wrap as `Indirect` when the descriptor's indirection bit
is set, else as `Direct`. -/
def Pointer.new (encoding : DwEhPe) (address : Nat) : Pointer :=
  if encoding.is_indirect then .Indirect address else .Direct address

/-- `2^64`, the modulus of wrapping `u64`/`usize` arithmetic. -/
def U64 : Nat := 2 ^ 64

/-- `u64::wrapping_add`. -/
def wadd (a b : Nat) : Nat := (a + b) % U64

/-- `usize` subtraction of two machine addresses (each a value below `2^64`),
with wrap-around. -/
def wsub (a b : Nat) : Nat := (a % U64 + (U64 - b % U64)) % U64

/-- Reinterpret an `i64` as a `u64` (`as u64` on a signed value: the
two's-complement bit pattern, i.e. the value modulo `2^64`). -/
def i64ToU64 (a : Int) : Nat := (a % (U64 : Int)).toNat

/-- The inner `parse_data` helper of `parse_encoded_pointer`: decode the raw
stored quantity according to the descriptor's value-format sub-field.
Signed variants are sign-extended and reinterpreted as `u64`.  The source
marks non-allow-listed formats `unreachable!()` (validity was already
checked); the model returns `UnknownPointerEncoding` there. -/
def parse_data (e : Endianness) (encoding : DwEhPe) (address_size : Nat)
    (input : Buf) : PResult (Buf × Nat) :=
  match encoding.format with
  | 0x0 => parse_address e input address_size
  | 0x1 => parse_unsigned_lebe input
  | 0x2 => do
      let (rest, a) ← parse_u16 e input
      .ok (rest, a)
  | 0x3 => do
      let (rest, a) ← parse_u32 e input
      .ok (rest, a)
  | 0x4 => parse_u64 e input
  | 0x9 => do
      let (rest, a) ← parse_signed_lebe input
      .ok (rest, i64ToU64 a)
  | 0xa => do
      let (rest, a) ← parse_i16 e input
      .ok (rest, i64ToU64 a)
  | 0xb => do
      let (rest, a) ← parse_i32 e input
      .ok (rest, i64ToU64 a)
  | 0xc => do
      let (rest, a) ← parse_i64 e input
      .ok (rest, i64ToU64 a)
  | _ => .error .UnknownPointerEncoding

/-- `parse_encoded_pointer`.  The application constants are
`DW_EH_PE_absptr` (0x00), `DW_EH_PE_pcrel` (0x10), `DW_EH_PE_textrel`
(0x20), `DW_EH_PE_datarel` (0x30), `DW_EH_PE_funcrel` (0x40) and
`DW_EH_PE_aligned` (0x50); the final catch-all models the source's
`unreachable!()`. -/
def parse_encoded_pointer (e : Endianness) (encoding : DwEhPe)
    (bases : BaseAddresses) (address_size : Nat) (sec input : Buf) :
    PResult (Buf × Pointer) :=
  if ¬ encoding.is_valid_encoding then .error .UnknownPointerEncoding
  else if encoding = DW_EH_PE_omit then .ok (input, .Direct 0)
  else
    match encoding.application with
    | 0x00 => do
        let (rest, addr) ← parse_data e encoding address_size input
        .ok (rest, Pointer.new encoding addr)
    | 0x10 =>
        match bases.cfi with
        | some cfi => do
            let (rest, offset) ← parse_data e encoding address_size input
            let offset_from_section := wsub input.ptr sec.ptr
            let p := wadd (wadd cfi offset_from_section) offset
            .ok (rest, Pointer.new encoding p)
        | none => .error .CfiRelativePointerButCfiBaseIsUndefined
    | 0x20 =>
        match bases.text with
        | some text => do
            let (rest, offset) ← parse_data e encoding address_size input
            .ok (rest, Pointer.new encoding (wadd text offset))
        | none => .error .TextRelativePointerButTextBaseIsUndefined
    | 0x30 =>
        match bases.data with
        | some data => do
            let (rest, offset) ← parse_data e encoding address_size input
            .ok (rest, Pointer.new encoding (wadd data offset))
        | none => .error .DataRelativePointerButDataBaseIsUndefined
    | 0x40 =>
        match bases.func with
        | some func => do
            let (rest, offset) ← parse_data e encoding address_size input
            .ok (rest, Pointer.new encoding (wadd func offset))
        | none => .error .FuncRelativePointerInBadContext
    | 0x50 => .error .UnsupportedPointerEncoding
    | _ => .error .UnknownPointerEncoding

/-- `AbbreviationTag` (`DW_TAG_*`), from `types.rs`. -/
inductive AbbreviationTag : Type
  | ArrayType | ClassType | EntryPoint | EnumerationType | FormalParameter
  | ImportedDeclaration | Label | LexicalBlock | Member | PointerType
  | ReferenceType | CompileUnit | StringType | StructureType | SubroutineType
  | Typedef | UnionType | UnspecifiedParameters | Variant | CommonBlock
  | CommonInclusion | Inheritance | InlinedSubroutine | Module
  | PtrToMemberType | SetType | SubrangeType | WithStmt | AccessDeclaration
  | BaseType | CatchBlock | ConstType | Constant | Enumerator | FileType
  | Friend | Namelist | NamelistItem | PackedType | Subprogram
  | TemplateTypeParameter | TemplateValueParameter | ThrownType | TryBlock
  | VariantPart | Variable | VolatileType | DwarfProcedure | RestrictType
  | InterfaceType | Namespace | ImportedModule | UnspecifiedType | PartialUnit
  | ImportedUnit | Condition | SharedType | TypeUnit | RvalueReferenceType
  | TemplateAlias | LoUser | HiUser

/-- `AbbreviationHasChildren` (`DW_CHILDREN_{yes,no}`), from `types.rs`. -/
inductive AbbreviationHasChildren : Type
  | Yes : AbbreviationHasChildren
  | No : AbbreviationHasChildren

/-- `AttributeName` (`DW_AT_*`), from `types.rs`. -/
inductive AttributeName : Type
  | Sibling | Location | Name | Ordering | ByteSize | BitOffset | BitSize
  | StmtList | LowPc | HighPc | Language | Discr | DiscrValue | Visibility
  | Import | StringLength | CommonReference | CompDir | ConstValue
  | ContainingType | DefaultValue | Inline | IsOptional | LowerBound
  | Producer | Prototyped | ReturnAddr | StartScope | BitStride | UpperBound
  | AbstractOrigin | Accessibility | AddressClass | Artificial | BaseTypes
  | CallingConvention | Count | DataMemberLocation | DeclColumn | DeclFile
  | DeclLine | Declaration | DiscrList | Encoding | External | FrameBase
  | Friend | IdentifierCase | MacroInfo | NamelistItem | Priority | Segment
  | Specification | StaticLink | Type | UseLocation | VariableParameter
  | Virtuality | VtableElemLocation | Allocated | Associated | DataLocation
  | ByteStride | EntryPc | UseUtf8 | Extension | Ranges | Trampoline
  | CallColumn | CallFile | CallLine | Description | BinaryScale
  | DecimalScale | Small | DecimalSign | DigitCount | PictureString
  | Mutable | ThreadsScaled | Explicit | ObjectPointer | Endianity
  | Elemental | Pure | Recursive | Signature | MainSubprogram | DataBitOffset
  | ConstExpr | EnumClass | LinkageName | LoUser | HiUser

/-- `AttributeForm` (`DW_FORM_*`), from `types.rs`. -/
inductive AttributeForm : Type
  | Addr | Block2 | Block4 | Data2 | Data4 | Data8 | String | Block | Block1
  | Data1 | Flag | Sdata | Strp | Udata | RefAddr | Ref1 | Ref2 | Ref4 | Ref8
  | RefUdata | Indirect | SecOffset | Exprloc | FlagPresent | RefSig8

/-- `AttributeSpecification`: a pair of attribute name and form. -/
structure AttributeSpecification : Type where
  name : AttributeName
  form : AttributeForm

/-- `AttributeSpecification::new`. -/
def AttributeSpecification.new (name : AttributeName) (form : AttributeForm) :
    AttributeSpecification :=
  ⟨name, form⟩

/-- `Abbreviation`: code (a `u64`), tag, has-children flag, and ordered
attribute specifications. -/
structure Abbreviation : Type where
  code : Nat
  tag : AbbreviationTag
  has_children : AbbreviationHasChildren
  attributes : List AttributeSpecification

/-- `Abbreviation::new`: asserts that `code` is nonzero; `none` models the
panic of the failed assertion. -/
def Abbreviation.new (code : Nat) (tag : AbbreviationTag)
    (has_children : AbbreviationHasChildren)
    (attributes : List AttributeSpecification) : Option Abbreviation :=
  if code = 0 then none
  else some ⟨code, tag, has_children, attributes⟩

/-- `Abbreviation::has_children`: true for `Yes`, false for `No`.  (The
structure field keeps the Rust field's name, so the boolean accessor is
named `hasChildrenBool`.) -/
def Abbreviation.hasChildrenBool (a : Abbreviation) : Bool :=
  match a.has_children with
  | .Yes => true
  | .No => false

/-- `Abbreviations`: a map from code to abbreviation.  The `HashMap` is
modelled as an association list with at most one entry per key (lookup finds
the first). -/
structure Abbreviations : Type where
  abbrevs : List (Nat × Abbreviation)

/-- `Abbreviations::new`. -/
def Abbreviations.new : Abbreviations := ⟨[]⟩

/-- `HashMap` lookup: the abbreviation stored for `code`, if any. -/
def Abbreviations.lookup (s : Abbreviations) (code : Nat) :
    Option Abbreviation :=
  (s.abbrevs.find? (fun p => p.1 == code)).map (·.2)

/-- `Abbreviations::insert`: `entry(code)` — occupied means `Err(())` with
the map untouched, vacant means insert and `Ok(())`.  The mutation of
`&mut self` is made explicit: the result pairs the `Result<(), ()>` with
the updated set. -/
def Abbreviations.insert (s : Abbreviations) (ab : Abbreviation) :
    Except Unit Unit × Abbreviations :=
  match s.lookup ab.code with
  | some _ => (.error (), s)
  | none => (.ok (), ⟨s.abbrevs ++ [(ab.code, ab)]⟩)

/-! ## Helper lemmas -/

theorem Buf.len_range_from (b : Buf) (n : Nat) :
    (b.range_from n).len = b.len - n := by
  simp [Buf.len, Buf.range_from]

/-! ## Claims -/

/-- C6: for every base-address set, address size, and input cursor (empty
included), `parse_encoded_pointer` with the omit descriptor (0xff) succeeds
with `Direct(0)` and consumes zero bytes: the returned cursor is the input
cursor itself. -/
theorem parse_encoded_pointer_omit_spec (e : Endianness)
    (bases : BaseAddresses) (address_size : Nat) (sec input : Buf) :
    parse_encoded_pointer e DW_EH_PE_omit bases address_size sec input =
      .ok (input, .Direct 0) := by
  rfl

/-- C2: `parse_initial_length` reads a 4-byte unsigned value `u`.  Below
0xfffffff0 that value is the length with 32-bit format; exactly 0xffffffff
triggers a further 8-byte read used as the length with 64-bit format; the
reserved band [0xfffffff0, 0xfffffffe] is an unknown-reserved-length
failure; and a too-short 8-byte continuation fails with end-of-input, not a
format error. -/
theorem parse_initial_length_spec (e : Endianness) (input : Buf)
    (h4 : 4 ≤ input.len) :
    (read_u32 e input < 0xfffffff0 →
      parse_initial_length e input =
        .ok (input.range_from 4, (read_u32 e input, Format.Dwarf32))) ∧
    (0xfffffff0 ≤ read_u32 e input → read_u32 e input ≤ 0xfffffffe →
      parse_initial_length e input = .error .UnknownReservedLength) ∧
    (read_u32 e input = 0xffffffff → 8 ≤ input.len - 4 →
      parse_initial_length e input =
        .ok ((input.range_from 4).range_from 8,
             (read_u64 e (input.range_from 4), Format.Dwarf64))) ∧
    (read_u32 e input = 0xffffffff → input.len - 4 < 8 →
      parse_initial_length e input = .error .UnexpectedEof) := by
  have hn4 : ¬ input.len < 4 := by omega
  refine ⟨?_, ?_, ?_, ?_⟩
  · intro hlt
    simp [parse_initial_length, parse_u32_as_u64, hn4, Bind.bind,
          Except.bind, MAX_DWARF_32_UNIT_LENGTH, hlt]
  · intro hge hle
    have h1 : ¬ read_u32 e input < MAX_DWARF_32_UNIT_LENGTH := by
      simp only [MAX_DWARF_32_UNIT_LENGTH]; omega
    have h2 : ¬ read_u32 e input = DWARF_64_INITIAL_UNIT_LENGTH := by
      simp only [DWARF_64_INITIAL_UNIT_LENGTH]; omega
    simp [parse_initial_length, parse_u32_as_u64, hn4, Bind.bind,
          Except.bind, h1, h2]
  · intro heq h8
    have h1 : ¬ read_u32 e input < MAX_DWARF_32_UNIT_LENGTH := by
      simp only [MAX_DWARF_32_UNIT_LENGTH]; omega
    have h8n : ¬ (input.range_from 4).len < 8 := by
      rw [Buf.len_range_from]; omega
    simp [parse_initial_length, parse_u32_as_u64, parse_u64, hn4, h1, heq,
          Bind.bind, Except.bind, DWARF_64_INITIAL_UNIT_LENGTH,
          MAX_DWARF_32_UNIT_LENGTH, h8n]
  · intro heq h8
    have h1 : ¬ read_u32 e input < MAX_DWARF_32_UNIT_LENGTH := by
      simp only [MAX_DWARF_32_UNIT_LENGTH]; omega
    have h8n : (input.range_from 4).len < 8 := by
      rw [Buf.len_range_from]; omega
    simp [parse_initial_length, parse_u32_as_u64, parse_u64, hn4, h1, heq,
          Bind.bind, Except.bind, DWARF_64_INITIAL_UNIT_LENGTH,
          MAX_DWARF_32_UNIT_LENGTH, h8n]

/-- Witness for C2: all four branches of `parse_initial_length_spec` at
concrete little-endian inputs. -/
theorem parse_initial_length_spec_witness :
    (parse_initial_length .little ⟨0, [0x12, 0x34, 0x56, 0x78]⟩ =
      .ok (⟨4, []⟩, (0x78563412, Format.Dwarf32))) ∧
    (parse_initial_length .little ⟨0, [0xfe, 0xff, 0xff, 0xff]⟩ =
      .error .UnknownReservedLength) ∧
    (parse_initial_length .little
        ⟨0, [0xff, 0xff, 0xff, 0xff,
             0x12, 0x34, 0x56, 0x78, 0x9a, 0xbc, 0xde, 0xff]⟩ =
      .ok (⟨12, []⟩, (0xffdebc9a78563412, Format.Dwarf64))) ∧
    (parse_initial_length .little
        ⟨0, [0xff, 0xff, 0xff, 0xff, 0x12, 0x34, 0x56, 0x78]⟩ =
      .error .UnexpectedEof) := by
  refine ⟨?_, ?_, ?_, ?_⟩
  · have h := (parse_initial_length_spec .little ⟨0, [0x12, 0x34, 0x56, 0x78]⟩
      (by decide)).1 (by decide)
    simpa using h
  · exact (parse_initial_length_spec .little ⟨0, [0xfe, 0xff, 0xff, 0xff]⟩
      (by decide)).2.1 (by decide) (by decide)
  · have h := (parse_initial_length_spec .little
      ⟨0, [0xff, 0xff, 0xff, 0xff,
           0x12, 0x34, 0x56, 0x78, 0x9a, 0xbc, 0xde, 0xff]⟩
      (by decide)).2.2.1 (by decide) (by decide)
    simpa using h
  · exact (parse_initial_length_spec .little
      ⟨0, [0xff, 0xff, 0xff, 0xff, 0x12, 0x34, 0x56, 0x78]⟩
      (by decide)).2.2.2 (by decide) (by decide)

/-- C8: every fixed-width primitive decoder (8/16/32/64-bit, signed and
unsigned), for every endianness, fails with end-of-input exactly when the
input is shorter than the primitive's width (no panic, no out-of-bounds
read — the model is total and reads only `take`n prefixes), and on success
returns the decoded value together with the cursor positioned exactly the
primitive's width past the input's start. -/
theorem fixed_width_primitives_spec (e : Endianness) (input : Buf) :
    ((input.len < 1 → parse_u8 input = .error .UnexpectedEof) ∧
     (1 ≤ input.len →
       parse_u8 input = .ok (input.range_from 1, input.data.headD 0 % 256))) ∧
    ((input.len < 1 → parse_i8 input = .error .UnexpectedEof) ∧
     (1 ≤ input.len →
       parse_i8 input =
         .ok (input.range_from 1, toSigned 8 (input.data.headD 0 % 256)))) ∧
    ((input.len < 2 → parse_u16 e input = .error .UnexpectedEof) ∧
     (2 ≤ input.len →
       parse_u16 e input = .ok (input.range_from 2, read_u16 e input))) ∧
    ((input.len < 2 → parse_i16 e input = .error .UnexpectedEof) ∧
     (2 ≤ input.len →
       parse_i16 e input = .ok (input.range_from 2, read_i16 e input))) ∧
    ((input.len < 4 → parse_u32 e input = .error .UnexpectedEof) ∧
     (4 ≤ input.len →
       parse_u32 e input = .ok (input.range_from 4, read_u32 e input))) ∧
    ((input.len < 4 → parse_i32 e input = .error .UnexpectedEof) ∧
     (4 ≤ input.len →
       parse_i32 e input = .ok (input.range_from 4, read_i32 e input))) ∧
    ((input.len < 8 → parse_u64 e input = .error .UnexpectedEof) ∧
     (8 ≤ input.len →
       parse_u64 e input = .ok (input.range_from 8, read_u64 e input))) ∧
    ((input.len < 8 → parse_i64 e input = .error .UnexpectedEof) ∧
     (8 ≤ input.len →
       parse_i64 e input = .ok (input.range_from 8, read_i64 e input))) := by
  obtain ⟨p, data⟩ := input
  refine ⟨⟨?_, ?_⟩, ⟨?_, ?_⟩, ?_, ?_, ?_, ?_, ?_, ?_⟩ <;>
    first
    | (intro h
       cases data with
       | nil => simp_all [parse_u8, parse_i8, Buf.len, Buf.range_from]
       | cons b rest => simp_all [parse_u8, parse_i8, Buf.len, Buf.range_from])
    | (constructor <;> intro h <;>
        simp_all [parse_u16, parse_i16, parse_u32, parse_i32, parse_u64,
                  parse_i64, Buf.len, Nat.not_lt.mpr h])

/-- Witness for C8: the 8-bit and 64-bit decoders at concrete inputs, on
both sides of the length boundary. -/
theorem fixed_width_primitives_spec_witness :
    (parse_u8 ⟨0, []⟩ = .error .UnexpectedEof) ∧
    (parse_u8 ⟨0, [0xab, 0xcd]⟩ = .ok (⟨1, [0xcd]⟩, 0xab)) ∧
    (parse_u64 .little ⟨0, [1, 2, 3, 4, 5, 6, 7]⟩ = .error .UnexpectedEof) ∧
    (parse_i64 .big ⟨0, [0xff, 0, 0, 0, 0, 0, 0, 1, 9]⟩ =
      .ok (⟨8, [9]⟩, -(0x00ffffffffffffff : Int))) := by
  refine ⟨?_, ?_, ?_, ?_⟩
  · exact ((fixed_width_primitives_spec .little ⟨0, []⟩).1).1 (by decide)
  · have h := ((fixed_width_primitives_spec .little ⟨0, [0xab, 0xcd]⟩).1).2
      (by decide)
    simpa using h
  · exact ((fixed_width_primitives_spec .little
      ⟨0, [1, 2, 3, 4, 5, 6, 7]⟩).2.2.2.2.2.2.1).1 (by decide)
  · have h := ((fixed_width_primitives_spec .big
      ⟨0, [0xff, 0, 0, 0, 0, 0, 0, 1, 9]⟩).2.2.2.2.2.2.2).2 (by decide)
    rw [h]
    rfl

/-- C4 counterexample: the claim says any address-size byte outside
{1, 2, 4, 8} fails with the unsupported-address-size kind — but the source
checks the remaining length first, so address size 3 on an empty buffer
fails with end-of-input instead. -/
theorem parse_address_claim_counterexample :
    parse_address .little ⟨0, []⟩ 3 = .error .UnexpectedEof ∧
    (Error.UnexpectedEof ≠ Error.UnsupportedAddressSize 3) :=
  ⟨rfl, fun h => Error.noConfusion h⟩

/-- C4 (amended): if the buffer holds at least `address_size` bytes, then a
size of 1, 2, 4 or 8 reads exactly that many bytes widened to 64 bits, and
any other size fails with unsupported-address-size carrying the offending
size; a buffer shorter than `address_size` fails with end-of-input. -/
theorem parse_address_spec (e : Endianness) (input : Buf) (sz : Nat) :
    (input.len < sz → parse_address e input sz = .error .UnexpectedEof) ∧
    (1 ≤ input.len →
      parse_address e input 1 =
        .ok (input.range_from 1, input.data.headD 0 % 256)) ∧
    (2 ≤ input.len →
      parse_address e input 2 = .ok (input.range_from 2, read_u16 e input)) ∧
    (4 ≤ input.len →
      parse_address e input 4 = .ok (input.range_from 4, read_u32 e input)) ∧
    (8 ≤ input.len →
      parse_address e input 8 = .ok (input.range_from 8, read_u64 e input)) ∧
    (sz ≤ input.len → sz ≠ 1 → sz ≠ 2 → sz ≠ 4 → sz ≠ 8 →
      parse_address e input sz = .error (.UnsupportedAddressSize sz)) := by
  refine ⟨?_, ?_, ?_, ?_, ?_, ?_⟩
  · intro h
    simp [parse_address, h]
  · intro h
    simp [parse_address, Nat.not_lt.mpr h]
  · intro h
    simp [parse_address, Nat.not_lt.mpr h]
  · intro h
    simp [parse_address, Nat.not_lt.mpr h]
  · intro h
    simp [parse_address, Nat.not_lt.mpr h]
  · intro h h1 h2 h4 h8
    have hn : ¬ input.len < sz := Nat.not_lt.mpr h
    rcases sz with _ | _ | _ | _ | _ | _ | _ | _ | _ | n <;>
      simp_all [parse_address]

/-- Witness for C4 (amended): concrete checks of the success, the
unsupported-size, and the end-of-input branches. -/
theorem parse_address_spec_witness :
    (parse_address .little ⟨0, [0x78, 0x56, 0x34, 0x12, 7]⟩ 4 =
      .ok (⟨4, [7]⟩, 0x12345678)) ∧
    (parse_address .little ⟨0, [1, 2, 3, 4]⟩ 3 =
      .error (.UnsupportedAddressSize 3)) ∧
    (parse_address .little ⟨0, [1, 2]⟩ 3 = .error .UnexpectedEof) := by
  refine ⟨?_, ?_, ?_⟩
  · have h := (parse_address_spec .little ⟨0, [0x78, 0x56, 0x34, 0x12, 7]⟩
      4).2.2.2.1 (by decide)
    simpa using h
  · exact (parse_address_spec .little ⟨0, [1, 2, 3, 4]⟩ 3).2.2.2.2.2
      (by decide) (by decide) (by decide) (by decide) (by decide)
  · exact (parse_address_spec .little ⟨0, [1, 2]⟩ 3).1 (by decide)

theorem position_characterization (p : Nat → Bool) (l : List Nat) :
    (position p l = none → ∀ x ∈ l, p x = false) ∧
    (∀ idx, position p l = some idx →
      ∃ b, l[idx]? = some b ∧ p b = true ∧
        ∀ x ∈ l.take idx, p x = false) := by
  induction l with
  | nil => simp [position]
  | cons x xs ih =>
    by_cases hx : p x
    · refine ⟨?_, ?_⟩
      · intro hnone
        simp [position, hx] at hnone
      · intro idx hsome
        simp [position, hx] at hsome
        subst hsome
        exact ⟨x, by simp, hx, by simp⟩
    · refine ⟨?_, ?_⟩
      · intro hnone
        simp only [position, if_neg hx, Option.map_eq_none'] at hnone
        intro y hy
        rcases List.mem_cons.mp hy with hy | hy
        · simpa [hy] using hx
        · exact ih.1 hnone y hy
      · intro idx hsome
        simp only [position, if_neg hx, Option.map_eq_some'] at hsome
        obtain ⟨j, hj, rfl⟩ := hsome
        obtain ⟨b, hb, hpb, hbefore⟩ := ih.2 j hj
        refine ⟨b, by simpa using hb, hpb, ?_⟩
        intro y hy
        rw [List.take_succ_cons] at hy
        rcases List.mem_cons.mp hy with hy | hy
        · simpa [hy] using hx
        · exact hbefore y hy

/-- C5: a buffer containing a zero byte parses successfully: exactly the
prefix up to and including the first zero is consumed, and the returned
`CStr`'s contents (its bytes without the trailing terminator) are exactly
the bytes before that first zero — no interior zeros, no byte beyond the
terminator.  A buffer with no zero byte fails with end-of-input. -/
theorem parse_null_terminated_string_spec (input : Buf)
    (hbytes : ∀ b ∈ input.data, b < 256) :
    (0 ∉ input.data →
      parse_null_terminated_string input = .error .UnexpectedEof) ∧
    (0 ∈ input.data → ∃ idx,
      input.data[idx]? = some 0 ∧
      0 ∉ input.data.take idx ∧
      parse_null_terminated_string input =
        .ok (⟨input.ptr + (idx + 1), input.data.drop (idx + 1)⟩,
             input.data.take (idx + 1)) ∧
      (input.data.take (idx + 1)).dropLast = input.data.take idx) := by
  constructor
  · intro h0
    rcases hpos : position (fun ch => ch % 256 == 0) input.data with _ | idx
    · simp [parse_null_terminated_string, hpos]
    · obtain ⟨b, hb, hpb, -⟩ :=
        (position_characterization (fun ch => ch % 256 == 0) input.data).2
          idx hpos
      have hmem : b ∈ input.data := List.getElem?_mem hb
      have hb0 : b = 0 := by
        have := hbytes b hmem
        simp only [beq_iff_eq] at hpb
        omega
      exact absurd (hb0 ▸ hmem) h0
  · intro h0
    rcases hpos : position (fun ch => ch % 256 == 0) input.data with _ | idx
    · exfalso
      have hall := (position_characterization
        (fun ch => ch % 256 == 0) input.data).1 hpos
      have := hall 0 h0
      simp at this
    · obtain ⟨b, hb, hpb, hbefore⟩ :=
        (position_characterization (fun ch => ch % 256 == 0) input.data).2
          idx hpos
      have hb0 : b = 0 := by
        have := hbytes b (List.getElem?_mem hb)
        simp only [beq_iff_eq] at hpb
        omega
      subst hb0
      refine ⟨idx, hb, ?_, ?_, ?_⟩
      · intro hmem
        have := hbefore 0 hmem
        simp at this
      · simp [parse_null_terminated_string, hpos]
      · rw [List.take_succ, hb]
        simp

/-- Witness for C5: both branches at concrete buffers. -/
theorem parse_null_terminated_string_spec_witness :
    (parse_null_terminated_string ⟨0, [104, 105]⟩ = .error .UnexpectedEof) ∧
    (∃ idx,
      ([104, 105, 0, 1, 0] : List Nat)[idx]? = some 0 ∧
      0 ∉ ([104, 105, 0, 1, 0] : List Nat).take idx ∧
      parse_null_terminated_string ⟨0, [104, 105, 0, 1, 0]⟩ =
        .ok (⟨0 + (idx + 1), ([104, 105, 0, 1, 0] : List Nat).drop (idx + 1)⟩,
             ([104, 105, 0, 1, 0] : List Nat).take (idx + 1)) ∧
      (([104, 105, 0, 1, 0] : List Nat).take (idx + 1)).dropLast =
        ([104, 105, 0, 1, 0] : List Nat).take idx) := by
  constructor
  · exact (parse_null_terminated_string_spec ⟨0, [104, 105]⟩
      (by decide)).1 (by decide)
  · exact (parse_null_terminated_string_spec ⟨0, [104, 105, 0, 1, 0]⟩
      (by decide)).2 (by simp)

/-- C9: inserting an abbreviation whose code is already present returns
`Err(())` and leaves the set unchanged (the earlier abbreviation is
retained); inserting a fresh code returns `Ok(())`, after which the set maps
that code to the new abbreviation and every other code to what it mapped
before. -/
theorem abbreviations_insert_spec (s : Abbreviations) (a : Abbreviation) :
    ((s.lookup a.code).isSome → s.insert a = (.error (), s)) ∧
    (s.lookup a.code = none →
      (s.insert a).1 = .ok () ∧
      ((s.insert a).2).lookup a.code = some a ∧
      (∀ c, c ≠ a.code → ((s.insert a).2).lookup c = s.lookup c)) := by
  constructor
  · intro hsome
    rcases h : s.lookup a.code with _ | b
    · rw [h] at hsome
      simp at hsome
    · simp [Abbreviations.insert, h]
  · intro hnone
    have hfind : s.abbrevs.find? (fun p => p.1 == a.code) = none := by
      have := hnone
      simp only [Abbreviations.lookup, Option.map_eq_none'] at this
      exact this
    refine ⟨?_, ?_, ?_⟩
    · simp [Abbreviations.insert, hnone]
    · simp [Abbreviations.insert, hnone, Abbreviations.lookup,
            List.find?_append, hfind]
    · intro c hc
      simp only [Abbreviations.insert, hnone]
      simp only [Abbreviations.lookup, List.find?_append]
      have hbe : (a.code == c) = false := beq_eq_false_iff_ne.mpr (Ne.symm hc)
      have : List.find? (fun p => p.1 == c) [(a.code, a)] = none := by
        simp [List.find?, hbe]
      rw [this]
      rcases h : s.abbrevs.find? (fun p => p.1 == c) with _ | b <;> simp

/-- Witness for C9: a duplicate insert rejected with the set unchanged, and
a fresh insert taking effect, at concrete abbreviations. -/
theorem abbreviations_insert_spec_witness :
    (Abbreviations.insert
        ⟨[(1, ⟨1, .CompileUnit, .Yes, []⟩)]⟩ ⟨1, .Subprogram, .No, []⟩ =
      (.error (), ⟨[(1, ⟨1, .CompileUnit, .Yes, []⟩)]⟩)) ∧
    ((Abbreviations.insert
        ⟨[(1, ⟨1, .CompileUnit, .Yes, []⟩)]⟩ ⟨2, .Subprogram, .No, []⟩).1 =
      .ok ()) ∧
    ((Abbreviations.insert
        ⟨[(1, ⟨1, .CompileUnit, .Yes, []⟩)]⟩ ⟨2, .Subprogram, .No, []⟩).2.lookup
        2 = some ⟨2, .Subprogram, .No, []⟩) ∧
    ((Abbreviations.insert
        ⟨[(1, ⟨1, .CompileUnit, .Yes, []⟩)]⟩ ⟨2, .Subprogram, .No, []⟩).2.lookup
        1 = Abbreviations.lookup ⟨[(1, ⟨1, .CompileUnit, .Yes, []⟩)]⟩ 1) := by
  refine ⟨?_, ?_, ?_, ?_⟩
  · exact (abbreviations_insert_spec ⟨[(1, ⟨1, .CompileUnit, .Yes, []⟩)]⟩
      ⟨1, .Subprogram, .No, []⟩).1 rfl
  · exact ((abbreviations_insert_spec ⟨[(1, ⟨1, .CompileUnit, .Yes, []⟩)]⟩
      ⟨2, .Subprogram, .No, []⟩).2 rfl).1
  · exact ((abbreviations_insert_spec ⟨[(1, ⟨1, .CompileUnit, .Yes, []⟩)]⟩
      ⟨2, .Subprogram, .No, []⟩).2 rfl).2.1
  · exact ((abbreviations_insert_spec ⟨[(1, ⟨1, .CompileUnit, .Yes, []⟩)]⟩
      ⟨2, .Subprogram, .No, []⟩).2 rfl).2.2 1 (by decide)

/-- C10: `Abbreviation::new` panics (modelled as `none`) exactly when the
code is zero; for any nonzero code the accessors `code`, `tag`,
`has_children` (as a boolean) and `attributes` return exactly the
constructor arguments. -/
theorem abbreviation_new_spec (code : Nat) (tag : AbbreviationTag)
    (hc : AbbreviationHasChildren) (attrs : List AttributeSpecification) :
    (Abbreviation.new code tag hc attrs = none ↔ code = 0) ∧
    (code ≠ 0 → ∃ a, Abbreviation.new code tag hc attrs = some a ∧
      a.code = code ∧ a.tag = tag ∧
      a.hasChildrenBool = (match hc with | .Yes => true | .No => false) ∧
      a.attributes = attrs) := by
  constructor
  · constructor
    · intro h
      by_contra hne
      simp [Abbreviation.new, hne] at h
    · intro h
      simp [Abbreviation.new, h]
  · intro hne
    refine ⟨⟨code, tag, hc, attrs⟩, by simp [Abbreviation.new, hne],
      rfl, rfl, ?_, rfl⟩
    cases hc <;> rfl

/-- Witness for C10: the accessor equations at a concrete nonzero code, and
the panic at code zero. -/
theorem abbreviation_new_spec_witness :
    (Abbreviation.new 0 .CompileUnit .Yes [] = none) ∧
    (∃ a, Abbreviation.new 7 .Variable .No
        [AttributeSpecification.new .Name .String] = some a ∧
      a.code = 7 ∧ a.tag = .Variable ∧
      a.hasChildrenBool =
        (match AbbreviationHasChildren.No with | .Yes => true | .No => false) ∧
      a.attributes = [AttributeSpecification.new .Name .String]) := by
  constructor
  · exact (abbreviation_new_spec 0 .CompileUnit .Yes []).1.mpr rfl
  · exact (abbreviation_new_spec 7 .Variable .No
      [AttributeSpecification.new .Name .String]).2 (by decide)

/-- C3: for a valid descriptor whose application is program-counter-,
text-, data-, or function-relative, absence of the respective base makes
`parse_encoded_pointer` fail with the error kind naming that base —
whatever bytes are in the cursor, and never substituting zero. -/
theorem parse_encoded_pointer_missing_base (e : Endianness) (enc : DwEhPe)
    (bases : BaseAddresses) (address_size : Nat) (sec input : Buf)
    (hvalid : enc.is_valid_encoding = true) :
    (enc.application = 0x10 → bases.cfi = none →
      parse_encoded_pointer e enc bases address_size sec input =
        .error .CfiRelativePointerButCfiBaseIsUndefined) ∧
    (enc.application = 0x20 → bases.text = none →
      parse_encoded_pointer e enc bases address_size sec input =
        .error .TextRelativePointerButTextBaseIsUndefined) ∧
    (enc.application = 0x30 → bases.data = none →
      parse_encoded_pointer e enc bases address_size sec input =
        .error .DataRelativePointerButDataBaseIsUndefined) ∧
    (enc.application = 0x40 → bases.func = none →
      parse_encoded_pointer e enc bases address_size sec input =
        .error .FuncRelativePointerInBadContext) := by
  refine ⟨?_, ?_, ?_, ?_⟩ <;> intro happ hbase <;>
    [skip; skip; skip; skip] <;>
    (have hne : enc ≠ DW_EH_PE_omit := by
      intro h
      rw [h] at happ
      simp [DwEhPe.application, DW_EH_PE_omit] at happ) <;>
    simp [parse_encoded_pointer, hvalid, hne, happ, hbase]

/-- Witness for C3: all four missing-base failures at concrete descriptors
(pcrel, textrel, datarel, funcrel over a 4-byte unsigned value format),
with nonempty input bytes showing the bytes are irrelevant. -/
theorem parse_encoded_pointer_missing_base_witness :
    (parse_encoded_pointer .little ⟨0x13⟩ ⟨none, none, none, none⟩ 4
        ⟨0, [1, 0, 0, 0]⟩ ⟨0, [1, 0, 0, 0]⟩ =
      .error .CfiRelativePointerButCfiBaseIsUndefined) ∧
    (parse_encoded_pointer .little ⟨0x23⟩ ⟨none, none, none, none⟩ 4
        ⟨0, [1, 0, 0, 0]⟩ ⟨0, [1, 0, 0, 0]⟩ =
      .error .TextRelativePointerButTextBaseIsUndefined) ∧
    (parse_encoded_pointer .little ⟨0x33⟩ ⟨none, none, none, none⟩ 4
        ⟨0, [1, 0, 0, 0]⟩ ⟨0, [1, 0, 0, 0]⟩ =
      .error .DataRelativePointerButDataBaseIsUndefined) ∧
    (parse_encoded_pointer .little ⟨0x43⟩ ⟨none, none, none, none⟩ 4
        ⟨0, [1, 0, 0, 0]⟩ ⟨0, [1, 0, 0, 0]⟩ =
      .error .FuncRelativePointerInBadContext) := by
  refine ⟨?_, ?_, ?_, ?_⟩
  · exact (parse_encoded_pointer_missing_base .little ⟨0x13⟩
      ⟨none, none, none, none⟩ 4 ⟨0, [1, 0, 0, 0]⟩ ⟨0, [1, 0, 0, 0]⟩
      (by decide)).1 (by decide) rfl
  · exact (parse_encoded_pointer_missing_base .little ⟨0x23⟩
      ⟨none, none, none, none⟩ 4 ⟨0, [1, 0, 0, 0]⟩ ⟨0, [1, 0, 0, 0]⟩
      (by decide)).2.1 (by decide) rfl
  · exact (parse_encoded_pointer_missing_base .little ⟨0x33⟩
      ⟨none, none, none, none⟩ 4 ⟨0, [1, 0, 0, 0]⟩ ⟨0, [1, 0, 0, 0]⟩
      (by decide)).2.2.1 (by decide) rfl
  · exact (parse_encoded_pointer_missing_base .little ⟨0x43⟩
      ⟨none, none, none, none⟩ 4 ⟨0, [1, 0, 0, 0]⟩ ⟨0, [1, 0, 0, 0]⟩
      (by decide)).2.2.2 (by decide) rfl

theorem wsub_of_le (a k : Nat) (_h : a + k ≤ 18446744073709551616) :
    wsub (a + k) a = k % 18446744073709551616 := by
  have hU : U64 = 18446744073709551616 := by norm_num [U64]
  simp only [wsub, hU]
  omega

/-- C1: for every endianness, every cursor that is the suffix of the
section buffer at byte offset `k`, and every valid program-counter-relative
descriptor, when the CFI base `b` is present `parse_encoded_pointer`
decodes the stored quantity `v` per the value-format nibble (captured by
the `parse_data` hypothesis) and produces the pointer whose address is
`b + k + v` under wrap-around unsigned 64-bit addition, together with the
cursor past the consumed bytes.  (`hfit` states that the section buffer
lies within the 64-bit address space.) -/
theorem parse_encoded_pointer_pcrel_spec (e : Endianness) (enc : DwEhPe)
    (bases : BaseAddresses) (address_size : Nat) (sec : Buf) (k : Nat)
    (b : Nat) (rest : Buf) (v : Nat)
    (hvalid : enc.is_valid_encoding = true)
    (happ : enc.application = 0x10)
    (hcfi : bases.cfi = some b)
    (hk : k ≤ sec.len)
    (hfit : sec.ptr + sec.len ≤ U64)
    (hdata : parse_data e enc address_size (sec.range_from k) =
      .ok (rest, v)) :
    parse_encoded_pointer e enc bases address_size sec (sec.range_from k) =
      .ok (rest, Pointer.new enc ((b + k + v) % U64)) := by
  have hU : U64 = 18446744073709551616 := by norm_num [U64]
  have hne : enc ≠ DW_EH_PE_omit := by
    intro homit
    rw [homit] at happ
    simp [DwEhPe.application, DW_EH_PE_omit] at happ
  rw [hU] at hfit
  have hsub : wsub (sec.range_from k).ptr sec.ptr =
      k % 18446744073709551616 := by
    show wsub (sec.ptr + k) sec.ptr = k % 18446744073709551616
    exact wsub_of_le sec.ptr k (by have := hk; unfold Buf.len at this; omega)
  simp only [parse_encoded_pointer, hvalid, not_true_eq_false, if_false,
    Bool.true_eq_false, ite_false, if_neg hne, happ, hcfi, hdata, hsub,
    Bind.bind, Except.bind, wadd]
  rw [hU]
  have harith : ((b + k % 18446744073709551616) % 18446744073709551616 + v) %
      18446744073709551616 = (b + k + v) % 18446744073709551616 := by
    omega
  rw [harith]

/-- Witness for C1: the spec's concrete example — little-endian,
pcrel + 4-byte unsigned (0x13), CFI base 0x100, value 0x10 bytes into the
section, stored value 1 giving address 0x100 + 0x10 + 1 = 0x111. -/
theorem parse_encoded_pointer_pcrel_spec_witness :
    parse_encoded_pointer .little ⟨0x13⟩ ⟨some 0x100, none, none, none⟩ 4
      ⟨0, [0, 0, 0, 0, 0, 0, 0, 0, 0, 0, 0, 0, 0, 0, 0, 0,
           1, 0, 0, 0, 1, 2, 3, 4]⟩
      (Buf.range_from
        ⟨0, [0, 0, 0, 0, 0, 0, 0, 0, 0, 0, 0, 0, 0, 0, 0, 0,
             1, 0, 0, 0, 1, 2, 3, 4]⟩ 0x10) =
      .ok (⟨20, [1, 2, 3, 4]⟩, .Direct 0x111) :=
  parse_encoded_pointer_pcrel_spec .little ⟨0x13⟩
    ⟨some 0x100, none, none, none⟩ 4
    ⟨0, [0, 0, 0, 0, 0, 0, 0, 0, 0, 0, 0, 0, 0, 0, 0, 0,
         1, 0, 0, 0, 1, 2, 3, 4]⟩ 0x10 0x100 ⟨20, [1, 2, 3, 4]⟩ 1
    (by decide) (by decide) rfl (by decide) (by decide) rfl

/-- C7: the signed value formats (signed LEB128 and signed fixed
2/4/8-byte) decode through the corresponding signed parser, sign-extend to
64 bits and reinterpret as `u64` (`i64ToU64`), to be combined with the
required base by wrap-around 64-bit addition; concretely, text-relative +
signed LEB128 with text base 0x11111111 and stored value -0x1111 yields
`Direct(0x11110000)` rather than a signed-overflow failure. -/
theorem parse_encoded_pointer_signed_spec (e : Endianness) (enc : DwEhPe)
    (address_size : Nat) (input : Buf) :
    (enc.format = 0x9 → parse_data e enc address_size input =
      (parse_signed_lebe input).map (fun ra => (ra.1, i64ToU64 ra.2))) ∧
    (enc.format = 0xa → parse_data e enc address_size input =
      (parse_i16 e input).map (fun ra => (ra.1, i64ToU64 ra.2))) ∧
    (enc.format = 0xb → parse_data e enc address_size input =
      (parse_i32 e input).map (fun ra => (ra.1, i64ToU64 ra.2))) ∧
    (enc.format = 0xc → parse_data e enc address_size input =
      (parse_i64 e input).map (fun ra => (ra.1, i64ToU64 ra.2))) ∧
    (parse_encoded_pointer .little ⟨0x29⟩ ⟨none, some 0x11111111, none, none⟩
        4 ⟨0, [0xef, 0x5d, 1, 2, 3, 4]⟩ ⟨0, [0xef, 0x5d, 1, 2, 3, 4]⟩ =
      .ok (⟨2, [1, 2, 3, 4]⟩, .Direct 0x11110000)) := by
  refine ⟨?_, ?_, ?_, ?_, ?_⟩
  · intro hfmt
    simp only [parse_data, hfmt, Bind.bind, Except.bind]
    rcases parse_signed_lebe input with err | ⟨r, a⟩ <;> rfl
  · intro hfmt
    simp only [parse_data, hfmt, Bind.bind, Except.bind]
    rcases parse_i16 e input with err | ⟨r, a⟩ <;> rfl
  · intro hfmt
    simp only [parse_data, hfmt, Bind.bind, Except.bind]
    rcases parse_i32 e input with err | ⟨r, a⟩ <;> rfl
  · intro hfmt
    simp only [parse_data, hfmt, Bind.bind, Except.bind]
    rcases parse_i64 e input with err | ⟨r, a⟩ <;> rfl
  · rfl

/-- Witness for C7: the signed-LEB128 equation instantiated at the
concrete buffer holding the encoding of -0x1111. -/
theorem parse_encoded_pointer_signed_spec_witness :
    parse_data .little ⟨0x29⟩ 4 ⟨0, [0xef, 0x5d]⟩ =
      (parse_signed_lebe ⟨0, [0xef, 0x5d]⟩).map
        (fun ra => (ra.1, i64ToU64 ra.2)) :=
  (parse_encoded_pointer_signed_spec .little ⟨0x29⟩ 4 ⟨0, [0xef, 0x5d]⟩).1
    (by decide)
